import Mathlib

/-!
Verification of the PR-statistics generator (`src/pull-request/main.py`)
against its natural-language specification.

The Python program is shallowly embedded: each relevant method becomes a
Lean definition operating on explicit data. JSON dictionaries coming from
the API are modelled by structures holding exactly the fields the code
reads; optional fields are `Option`, and fields the code accesses with a
truthy check (`r.get('body')`) are `String` with `""` standing for both
`None` and the empty string (both falsy in Python). Network I/O is
modelled by passing the sequence of HTTP responses the service would
produce; file I/O by passing the document state explicitly.
-/

/-- A review object as read by the generator: `state` (via `r.get('state')`,
`""` when absent), `submitted_at` (accessed with `r['submitted_at']`, so
required), and `body` (via `r.get('body')`, `""` models absent/empty, the
falsy cases). -/
structure Review where
  state : String
  submitted_at : String
  body : String
  deriving Repr, DecidableEq

/-- A timeline event as read by the generator: `event.get('event')` and
`event.get('created_at')`, both possibly absent. -/
structure TimelineEvent where
  event : Option String
  created_at : Option String
  deriving Repr, DecidableEq

/-- The PR fields read by `_get_request_to_review_timestamp`:
`pr.get('draft', False)` and `pr['created_at']`. -/
structure PRMeta where
  draft : Bool
  created_at : String
  deriving Repr, DecidableEq

/-- Python's `min(x :: xs, key=key)`: fold over the tail keeping the current
minimum, replacing it only on a strictly smaller key (so the first minimum
wins ties), exactly CPython's behaviour. -/
def pyMinBy {α β : Type} [LinearOrder β] (key : α → β) (x : α) (xs : List α) : α :=
  xs.foldl (fun best r => if key r < key best then r else best) x

/-- `PRStatsGenerator._get_request_to_review_timestamp` (main.py 174-185):
non-draft PRs use `pr['created_at']`; draft PRs scan the timeline in order
for the first `ready_for_review` or `review_requested` event and return its
`created_at` (possibly absent), falling back to `pr['created_at']`. -/
def get_request_to_review_timestamp (pr : PRMeta) (timeline : List TimelineEvent) :
    Option String :=
  if !pr.draft then some pr.created_at
  else
    match timeline.find? (fun e =>
        e.event == some "ready_for_review" || e.event == some "review_requested") with
    | some e => e.created_at
    | none => some pr.created_at

/-- `PRStatsGenerator._get_approval_timestamp` (main.py 187-192): filter the
reviews whose state is `APPROVED`, and if any remain return the
`submitted_at` of the `min(..., key=submitted_at)` element. -/
def get_approval_timestamp (reviews : List Review) : Option String :=
  match reviews.filter (fun r => r.state == "APPROVED") with
  | [] => none
  | r :: rs => some (pyMinBy (fun x => x.submitted_at) r rs).submitted_at

/-- `PRStatsGenerator._get_review_given_timestamp` (main.py 194-203): filter
reviews with state `REQUEST_CHANGES` or `COMMENT`, or `APPROVED` with a
truthy body, and if any remain return the `submitted_at` of the
`min(..., key=submitted_at)` element. -/
def get_review_given_timestamp (reviews : List Review) : Option String :=
  match reviews.filter (fun r =>
      r.state == "REQUEST_CHANGES" || r.state == "COMMENT" ||
      (r.state == "APPROVED" && r.body != "")) with
  | [] => none
  | r :: rs => some (pyMinBy (fun x => x.submitted_at) r rs).submitted_at

/-- The timeline scan condition of `_get_request_to_review_timestamp`
(main.py 182): `event.get('event') in ['ready_for_review', 'review_requested']`. -/
def isReadyEvent (e : TimelineEvent) : Bool :=
  e.event == some "ready_for_review" || e.event == some "review_requested"

/-- A review counts as substantive for `_get_review_given_timestamp`:
state `REQUEST_CHANGES` or `COMMENT`, or `APPROVED` with a truthy body. -/
def SubstantiveP (r : Review) : Prop :=
  r.state = "REQUEST_CHANGES" ∨ r.state = "COMMENT" ∨
    (r.state = "APPROVED" ∧ r.body ≠ "")

/-- The JSON document persisted by the generator: top-level fields
`repository` (the raw JSON object handed to `_init_json_output`, modelled as
its key/value pairs), `generated_at`, and `pull_requests`. `σ` abstracts the
serialized `PullRequestStats` record (`asdict(pr_stats)`). -/
structure JsonDoc (σ : Type) where
  repository : List (String × String)
  generated_at : String
  pull_requests : List σ
  deriving Repr, DecidableEq

/-- `PRStatsGenerator._init_json_output` (main.py 367-375): write
`{"repository": repo_info, "generated_at": <now>, "pull_requests": []}`
to the output file. -/
def init_json_output {σ : Type} (repo_info : List (String × String)) (now : String) :
    JsonDoc σ :=
  { repository := repo_info, generated_at := now, pull_requests := [] }

/-- `PRStatsGenerator._append_pr_to_json` (main.py 377-388): read the
document back, append `asdict(pr_stats)` to its `pull_requests` list, and
write the whole document out again. -/
def append_pr_to_json {σ : Type} (doc : JsonDoc σ) (s : σ) : JsonDoc σ :=
  { doc with pull_requests := doc.pull_requests ++ [s] }

/-- One PR as seen by the `generate_stats` loop: its number together with
the outcome of `generate_pr_stats` for it — the computed record, or the
message of the exception it raised. -/
abbrev PROutcome (σ : Type) := Nat × Except String σ

/-- The `for pr in prs` loop of `generate_stats` (main.py 348-355): on
success append the stats record to the JSON file; on an exception log one
error naming the PR (`Error processing PR #n`) and continue with the
remaining PRs. Returns the final file document and the error log (the
numbers of the PRs an error was logged for, in order). -/
def generate_stats_loop {σ : Type} (doc : JsonDoc σ) (log : List Nat) :
    List (PROutcome σ) → JsonDoc σ × List Nat
  | [] => (doc, log)
  | (_, Except.ok s) :: rest => generate_stats_loop (append_pr_to_json doc s) log rest
  | (n, Except.error _) :: rest => generate_stats_loop doc (log ++ [n]) rest

/-- The output-file behaviour of `generate_stats` (main.py 346-355): the
file is initialized with `self._init_json_output(output_file, {})` — the
literal empty dict — and then the per-PR loop runs. `now` is the timestamp
taken at initialization. -/
def generate_stats_file {σ : Type} (now : String) (inputs : List (PROutcome σ)) :
    JsonDoc σ × List Nat :=
  generate_stats_loop (init_json_output [] now) [] inputs

/-- Spec-side: the stats of the successfully processed PRs, in order. -/
def okStats {σ : Type} (inputs : List (PROutcome σ)) : List σ :=
  inputs.filterMap (fun p =>
    match p.2 with | Except.ok s => some s | Except.error _ => none)

/-- Spec-side: the numbers of the PRs whose processing raised, in order. -/
def errorPRs {σ : Type} (inputs : List (PROutcome σ)) : List Nat :=
  inputs.filterMap (fun p =>
    match p.2 with | Except.ok _ => none | Except.error _ => some p.1)

/-- A decoded JSON response body as tested by the pagination loop
(`if not data or not isinstance(data, list)`): a JSON list with its items,
or some other JSON value (e.g. a dict), of which only Python truthiness
matters — `other true` models a falsy value such as the `{}` a 404 turns
into. -/
inductive Body (α : Type) where
  | jlist : List α → Body α
  | other : Bool → Body α
  deriving Repr, DecidableEq

/-- The observable parameters of one GET issued by the client: the `page`
and `per_page` query params when set, and the accept header in force. -/
structure ApiRequest where
  page : Option Nat
  perPage : Option Nat
  accept : String
  deriving Repr, DecidableEq

/-- The session-wide accept header installed in `GitHubAPIClient.__init__`
(main.py 82), used by every request that does not override it. -/
def sessionAccept : String := "application/vnd.github.v3+json"

/-- The special accept header `get_pr_timeline` sends per request
(main.py 155). -/
def timelineAccept : String := "application/vnd.github.mockingbird-preview+json"

/-- One HTTP response as consumed by `_make_request`, with the values its
handler reads at that attempt: the status code, the parsed
`X-RateLimit-Reset` header (absent ⇒ the `.get(..., 0)` default applies),
the current `int(time.time())`, and the decoded body. -/
structure HttpResp (α : Type) where
  status : Nat
  resetHeader : Option Int
  now : Int
  body : Body α
  deriving Repr, DecidableEq

/-- The outcome of `_make_request`: a returned body (a 200's JSON, or the
empty dict a 404 is converted to), an exception from `raise_for_status`, or
still retrying (the `while True` loop consumed every response supplied so
far without giving up — it never abandons a 403). -/
inductive ReqOutcome (α : Type) where
  | ok : Body α → ReqOutcome α
  | raised : Nat → ReqOutcome α
  | retrying : ReqOutcome α
  deriving Repr, DecidableEq

/-- `GitHubAPIClient._make_request` (main.py 87-105), driven by the
responses the service gives to the successive attempts at the one request.
Returns the sleeps performed (seconds) and the outcome: 200 returns the
body; 403 reads the reset header, sleeps `max(reset - now + 60, 60)` and
retries the same request; 404 logs and returns `{}`; any other status
raises. -/
def make_request {α : Type} : List (HttpResp α) → List Int × ReqOutcome α
  | [] => ([], ReqOutcome.retrying)
  | r :: rest =>
    if r.status = 200 then ([], ReqOutcome.ok r.body)
    else if r.status = 403 then
      (max (r.resetHeader.getD 0 - r.now + 60) 60 :: (make_request rest).1,
        (make_request rest).2)
    else if r.status = 404 then ([], ReqOutcome.ok (Body.other true))
    else ([], ReqOutcome.raised r.status)

/-- `GitHubAPIClient._paginate` (main.py 107-129). `pages n` is the body
`_make_request` eventually returns for the request carrying `page = n`,
`per_page = 100`; `fuel` bounds the iterations modelled (the Python loop is
unbounded; every terminating run is reproduced by any large enough fuel).
Returns the concatenated items and the requests issued: starting at page 1,
stop on a falsy or non-list body, extend the results, stop after a page of
fewer than 100 items, else continue with the next page number. -/
def paginateAux {α : Type} (pages : Nat → Body α) : Nat → Nat → List α × List ApiRequest
  | 0, _ => ([], [])
  | fuel + 1, page =>
    match pages page with
    | Body.other _ => ([], [⟨some page, some 100, sessionAccept⟩])
    | Body.jlist l =>
      if l.isEmpty then ([], [⟨some page, some 100, sessionAccept⟩])
      else if l.length < 100 then (l, [⟨some page, some 100, sessionAccept⟩])
      else
        (l ++ (paginateAux pages fuel (page + 1)).1,
          ⟨some page, some 100, sessionAccept⟩ :: (paginateAux pages fuel (page + 1)).2)

/-- The pagination loop starts at `page = 1` (main.py 110). -/
def paginate {α : Type} (pages : Nat → Body α) (fuel : Nat) : List α × List ApiRequest :=
  paginateAux pages fuel 1

/-- The service state `get_pr_timeline` talks to: the status it answers
with and the event pages it holds; a GET carrying no pagination params is
served page 1. -/
structure TimelineService (α : Type) where
  status : Nat
  page : Nat → List α

/-- `GitHubAPIClient.get_pr_timeline` (main.py 151-160): issue one
`session.get` with the special accept header and no `page`/`per_page`
params (so the service serves its first page only), return the decoded body
on 200 and `[]` on any other status — this method does not go through
`_make_request`. Returns the events delivered to the caller and the
requests issued. -/
def get_pr_timeline {α : Type} (svc : TimelineService α) : List α × List ApiRequest :=
  ((if svc.status = 200 then svc.page 1 else []), [⟨none, none, timelineAccept⟩])

/-- A concrete page source serving pages of sizes 100, 100, 37. -/
def c6pages : Nat → Body Unit := fun n =>
  if n = 1 then Body.jlist (List.replicate 100 ())
  else if n = 2 then Body.jlist (List.replicate 100 ())
  else Body.jlist (List.replicate 37 ())

theorem pyMinBy_cons {α β : Type} [LinearOrder β] (key : α → β) (x y : α) (xs : List α) :
    pyMinBy key x (y :: xs) = pyMinBy key (if key y < key x then y else x) xs := rfl

theorem pyMinBy_mem {α β : Type} [LinearOrder β] (key : α → β) (x : α) (xs : List α) :
    pyMinBy key x xs ∈ x :: xs := by
  induction xs generalizing x with
  | nil => simp [pyMinBy]
  | cons y ys ih =>
    rw [pyMinBy_cons]
    by_cases hyx : key y < key x
    · rw [if_pos hyx]
      rcases List.mem_cons.mp (ih y) with h | h
      · simp [h]
      · simp [List.mem_cons, h]
    · rw [if_neg hyx]
      rcases List.mem_cons.mp (ih x) with h | h
      · simp [h]
      · simp [List.mem_cons, h]

theorem pyMinBy_key_le {α β : Type} [LinearOrder β] (key : α → β) (x : α) (xs : List α) :
    ∀ y ∈ x :: xs, key (pyMinBy key x xs) ≤ key y := by
  induction xs generalizing x with
  | nil => simp [pyMinBy]
  | cons y ys ih =>
    intro z hz
    rw [pyMinBy_cons]
    have hmin : key (if key y < key x then y else x) ≤ key x ∧
        key (if key y < key x then y else x) ≤ key y := by
      by_cases hyx : key y < key x
      · simp [hyx, le_of_lt hyx]
      · simp [hyx, le_of_not_lt hyx]
    simp only [List.mem_cons] at hz
    rcases hz with hz | hz | hz
    · subst hz
      exact le_trans (ih _ _ (List.mem_cons_self _ _)) hmin.1
    · subst hz
      exact le_trans (ih _ _ (List.mem_cons_self _ _)) hmin.2
    · exact ih _ _ (List.mem_cons_of_mem _ hz)

theorem find?_middle {α : Type} (p : α → Bool) (pre post : List α) (e : α)
    (hpre : ∀ x ∈ pre, p x = false) (he : p e = true) :
    (pre ++ e :: post).find? p = some e := by
  induction pre with
  | nil => simp [List.find?_cons, he]
  | cons a as ih =>
    have ha : p a = false := hpre a (by simp)
    simp only [List.cons_append, List.find?_cons, ha]
    exact ih (fun x hx => hpre x (List.mem_cons_of_mem _ hx))

/-- C3: a non-draft PR's ready-for-review timestamp is its creation time; a
draft PR's is the `created_at` of the first timeline event (in given order)
whose kind is `ready_for_review` or `review_requested`; with no such event
it falls back to the creation time. -/
theorem C3_ready_for_review_rule (pr : PRMeta) (timeline pre post : List TimelineEvent)
    (e : TimelineEvent) :
    (pr.draft = false → get_request_to_review_timestamp pr timeline = some pr.created_at)
    ∧ (pr.draft = true →
        timeline = pre ++ e :: post →
        (∀ x ∈ pre, isReadyEvent x = false) →
        isReadyEvent e = true →
        get_request_to_review_timestamp pr timeline = e.created_at)
    ∧ (pr.draft = true →
        (∀ x ∈ timeline, isReadyEvent x = false) →
        get_request_to_review_timestamp pr timeline = some pr.created_at) := by
  refine ⟨fun hd => ?_, fun hd hsplit hpre he => ?_, fun hd hnone => ?_⟩
  · simp [get_request_to_review_timestamp, hd]
  · have hfind :
        timeline.find? (fun e =>
          e.event == some "ready_for_review" || e.event == some "review_requested") = some e := by
      rw [hsplit]
      exact find?_middle _ pre post e hpre he
    simp [get_request_to_review_timestamp, hd, hfind]
  · have hfind :
        timeline.find? (fun e =>
          e.event == some "ready_for_review" || e.event == some "review_requested") = none := by
      rw [List.find?_eq_none]
      intro x hx
      have := hnone x hx
      simpa [isReadyEvent] using this
    simp [get_request_to_review_timestamp, hd, hfind]

theorem C3_ready_for_review_rule_witness :
    get_request_to_review_timestamp ⟨true, "2024-01-01T00:00:00Z"⟩
      [⟨some "labeled", none⟩, ⟨some "ready_for_review", some "2024-01-03T00:00:00Z"⟩] =
      some "2024-01-03T00:00:00Z" :=
  (C3_ready_for_review_rule ⟨true, "2024-01-01T00:00:00Z"⟩
      [⟨some "labeled", none⟩, ⟨some "ready_for_review", some "2024-01-03T00:00:00Z"⟩]
      [⟨some "labeled", none⟩] []
      ⟨some "ready_for_review", some "2024-01-03T00:00:00Z"⟩).2.1
    rfl rfl (by decide) (by decide)

/-- C4: the first-approval timestamp is absent iff no review is `APPROVED`;
when present it is the `submitted_at` of some approved review and is a lower
bound (string comparison) of the `submitted_at` of every approved review. -/
theorem C4_first_approval (reviews : List Review) :
    (get_approval_timestamp reviews = none ↔ ∀ r ∈ reviews, r.state ≠ "APPROVED")
    ∧ (∀ t, get_approval_timestamp reviews = some t →
        (∃ r ∈ reviews, r.state = "APPROVED" ∧ r.submitted_at = t)
        ∧ ∀ r ∈ reviews, r.state = "APPROVED" → t ≤ r.submitted_at) := by
  constructor
  · constructor
    · intro hnone r hr hst
      unfold get_approval_timestamp at hnone
      have hmem : r ∈ reviews.filter (fun r => r.state == "APPROVED") :=
        List.mem_filter.mpr ⟨hr, by simp [hst]⟩
      cases h : reviews.filter (fun r => r.state == "APPROVED") with
      | nil => rw [h] at hmem; cases hmem
      | cons a as => rw [h] at hnone; cases hnone
    · intro hall
      have h : reviews.filter (fun r => r.state == "APPROVED") = [] :=
        List.filter_eq_nil_iff.mpr (fun a ha => by simpa using hall a ha)
      unfold get_approval_timestamp
      rw [h]
  · intro t ht
    unfold get_approval_timestamp at ht
    cases h : reviews.filter (fun r => r.state == "APPROVED") with
    | nil => rw [h] at ht; cases ht
    | cons r rs =>
      rw [h] at ht
      injection ht with ht
      subst ht
      have hmem := pyMinBy_mem (fun x => x.submitted_at) r rs
      rw [← h, List.mem_filter] at hmem
      constructor
      · exact ⟨_, hmem.1, by simpa using hmem.2, rfl⟩
      · intro q hq hst
        have hqf : q ∈ r :: rs := by
          rw [← h, List.mem_filter]
          exact ⟨hq, by simp [hst]⟩
        exact pyMinBy_key_le (fun x => x.submitted_at) r rs q hqf

theorem C4_first_approval_witness :
    (∃ r ∈ [(⟨"COMMENT", "2024-01-01T00:00:00Z", ""⟩ : Review),
            ⟨"APPROVED", "2024-01-02T00:00:00Z", ""⟩],
        r.state = "APPROVED" ∧ r.submitted_at = "2024-01-02T00:00:00Z")
    ∧ ∀ r ∈ [(⟨"COMMENT", "2024-01-01T00:00:00Z", ""⟩ : Review),
             ⟨"APPROVED", "2024-01-02T00:00:00Z", ""⟩],
        r.state = "APPROVED" → "2024-01-02T00:00:00Z" ≤ r.submitted_at :=
  (C4_first_approval
      [⟨"COMMENT", "2024-01-01T00:00:00Z", ""⟩,
       ⟨"APPROVED", "2024-01-02T00:00:00Z", ""⟩]).2
    "2024-01-02T00:00:00Z" (by decide)

theorem substantive_beq (r : Review) :
    (r.state == "REQUEST_CHANGES" || r.state == "COMMENT" ||
      (r.state == "APPROVED" && r.body != "")) = true ↔ SubstantiveP r := by
  simp [SubstantiveP, or_assoc]

/-- C5: the first-substantive-review timestamp is absent iff no review has
state `REQUEST_CHANGES`/`COMMENT` and no `APPROVED` review has a non-empty
body; when present it is the `submitted_at` of some substantive review and a
lower bound of every substantive review's `submitted_at`. Moreover, on the
spec's end-to-end example (non-draft PR created 2024-01-01T00:00:00Z, an
`APPROVED` review without body at 2024-01-02T00:00:00Z and a `COMMENT`
review at 2024-01-01T12:00:00Z) the three derived values are as stated. -/
theorem C5_first_substantive (reviews : List Review) :
    (get_review_given_timestamp reviews = none ↔ ∀ r ∈ reviews, ¬ SubstantiveP r)
    ∧ (∀ t, get_review_given_timestamp reviews = some t →
        (∃ r ∈ reviews, SubstantiveP r ∧ r.submitted_at = t)
        ∧ ∀ r ∈ reviews, SubstantiveP r → t ≤ r.submitted_at)
    ∧ (get_request_to_review_timestamp ⟨false, "2024-01-01T00:00:00Z"⟩ [] =
          some "2024-01-01T00:00:00Z"
        ∧ get_approval_timestamp
            [⟨"APPROVED", "2024-01-02T00:00:00Z", ""⟩,
             ⟨"COMMENT", "2024-01-01T12:00:00Z", ""⟩] = some "2024-01-02T00:00:00Z"
        ∧ get_review_given_timestamp
            [⟨"APPROVED", "2024-01-02T00:00:00Z", ""⟩,
             ⟨"COMMENT", "2024-01-01T12:00:00Z", ""⟩] = some "2024-01-01T12:00:00Z") := by
  refine ⟨⟨?_, ?_⟩, ?_, by decide, by decide, by decide⟩
  · intro hnone r hr hst
    unfold get_review_given_timestamp at hnone
    have hmem : r ∈ reviews.filter (fun r =>
        r.state == "REQUEST_CHANGES" || r.state == "COMMENT" ||
        (r.state == "APPROVED" && r.body != "")) :=
      List.mem_filter.mpr ⟨hr, (substantive_beq r).mpr hst⟩
    cases h : reviews.filter (fun r =>
        r.state == "REQUEST_CHANGES" || r.state == "COMMENT" ||
        (r.state == "APPROVED" && r.body != "")) with
    | nil => rw [h] at hmem; cases hmem
    | cons a as => rw [h] at hnone; cases hnone
  · intro hall
    have h : reviews.filter (fun r =>
        r.state == "REQUEST_CHANGES" || r.state == "COMMENT" ||
        (r.state == "APPROVED" && r.body != "")) = [] :=
      List.filter_eq_nil_iff.mpr (fun a ha hsub =>
        hall a ha ((substantive_beq a).mp hsub))
    unfold get_review_given_timestamp
    rw [h]
  · intro t ht
    unfold get_review_given_timestamp at ht
    cases h : reviews.filter (fun r =>
        r.state == "REQUEST_CHANGES" || r.state == "COMMENT" ||
        (r.state == "APPROVED" && r.body != "")) with
    | nil => rw [h] at ht; cases ht
    | cons r rs =>
      rw [h] at ht
      injection ht with ht
      subst ht
      have hmem := pyMinBy_mem (fun x => x.submitted_at) r rs
      rw [← h, List.mem_filter] at hmem
      constructor
      · exact ⟨_, hmem.1, (substantive_beq _).mp hmem.2, rfl⟩
      · intro q hq hst
        have hqf : q ∈ r :: rs := by
          rw [← h, List.mem_filter]
          exact ⟨hq, (substantive_beq q).mpr hst⟩
        exact pyMinBy_key_le (fun x => x.submitted_at) r rs q hqf

theorem C5_first_substantive_witness :
    (∃ r ∈ [(⟨"APPROVED", "2024-01-05T00:00:00Z", "looks good"⟩ : Review)],
        SubstantiveP r ∧ r.submitted_at = "2024-01-05T00:00:00Z")
    ∧ ∀ r ∈ [(⟨"APPROVED", "2024-01-05T00:00:00Z", "looks good"⟩ : Review)],
        SubstantiveP r → "2024-01-05T00:00:00Z" ≤ r.submitted_at :=
  (C5_first_substantive [⟨"APPROVED", "2024-01-05T00:00:00Z", "looks good"⟩]).2.1
    "2024-01-05T00:00:00Z" (by decide)

theorem generate_stats_loop_spec {σ : Type} (doc : JsonDoc σ) (log : List Nat)
    (inputs : List (PROutcome σ)) :
    generate_stats_loop doc log inputs =
      ({ doc with pull_requests := doc.pull_requests ++ okStats inputs },
        log ++ errorPRs inputs) := by
  induction inputs generalizing doc log with
  | nil => simp [generate_stats_loop, okStats, errorPRs]
  | cons p rest ih =>
    obtain ⟨n, out⟩ := p
    cases out with
    | ok s =>
      simp [generate_stats_loop, okStats, errorPRs, append_pr_to_json, ih,
        List.filterMap_cons]
    | error e =>
      simp [generate_stats_loop, okStats, errorPRs, ih, List.filterMap_cons]

/-- C10: appending a record to the persisted document leaves `repository`
and `generated_at` unchanged and changes `pull_requests` only by adding the
new record as its single last element. -/
theorem C10_append_frame {σ : Type} (doc : JsonDoc σ) (s : σ) :
    (append_pr_to_json doc s).repository = doc.repository
    ∧ (append_pr_to_json doc s).generated_at = doc.generated_at
    ∧ (append_pr_to_json doc s).pull_requests = doc.pull_requests ++ [s] :=
  ⟨rfl, rfl, rfl⟩

/-- C8: a PR whose processing raises is skipped after one error is logged
for it and the run continues: the final file holds exactly the stats of the
successfully processed PRs in processing order, and the error log names
exactly the failing PRs; in particular, with 3 PRs where PR #2 raises, the
file ends holding the stats of PR #1 and PR #3 in that order and exactly one
error is logged, for PR #2. -/
theorem C8_failed_pr_skipped {σ : Type} (now : String)
    (inputs : List (PROutcome σ)) (s1 s3 : σ) (e : String) :
    ((generate_stats_file now inputs).1.pull_requests = okStats inputs
      ∧ (generate_stats_file now inputs).2 = errorPRs inputs)
    ∧ ((generate_stats_file now
          [(1, Except.ok s1), (2, Except.error e), (3, Except.ok s3)]).1.pull_requests
        = [s1, s3]
      ∧ (generate_stats_file now
          [(1, Except.ok s1), (2, Except.error e), (3, Except.ok s3)]).2 = [2]) := by
  refine ⟨⟨?_, ?_⟩, ?_, ?_⟩ <;>
    simp [generate_stats_file, generate_stats_loop_spec, init_json_output,
      okStats, errorPRs, List.filterMap_cons]

/-- C2 (documenting the divergence): the file persisted by `generate_stats`
has `generated_at` and `pull_requests` as specified, but its `repository`
field is the literal empty object `{}` passed at line 347
(`self._init_json_output(output_file, {})`): it never contains the `name`,
`owner` or `url` fields. The populated repository object only reaches the
in-memory `RepositoryStats` return value (main.py 357-365), never the file. -/
theorem C2_file_repository_empty {σ : Type} (now : String)
    (inputs : List (PROutcome σ)) :
    (generate_stats_file now inputs).1.repository = []
    ∧ (generate_stats_file now inputs).1.generated_at = now
    ∧ (generate_stats_file now inputs).1.pull_requests = okStats inputs := by
  rw [generate_stats_file, generate_stats_loop_spec]
  exact ⟨rfl, rfl, rfl⟩

theorem okStats_append {σ : Type} (l₁ l₂ : List (PROutcome σ)) :
    okStats (l₁ ++ l₂) = okStats l₁ ++ okStats l₂ := by
  simp [okStats, List.filterMap_append]

theorem okStats_length_all_ok {σ : Type} (l : List (PROutcome σ))
    (h : ∀ p ∈ l, ∃ s, p.2 = Except.ok s) : (okStats l).length = l.length := by
  induction l with
  | nil => rfl
  | cons p rest ih =>
    obtain ⟨s, hs⟩ := h p (List.mem_cons_self _ _)
    rw [okStats, List.filterMap_cons, hs]
    simp only [List.length_cons]
    rw [← okStats]
    exact congrArg Nat.succ (ih (fun q hq => h q (List.mem_cons_of_mem _ hq)))

/-- C1 (amended): after the loop has handled the first `i` of the `n` PRs,
the persisted document's `pull_requests` array holds exactly one entry per
successfully processed PR among those `i` — in particular exactly `i`
entries whenever no PR raised — and the persisted sequence is always a
prefix of the final run's sequence. Each append is a completed
read-modify-write of the document before the next PR is handled: the state
after `i + 1` PRs is obtained from the state after `i` PRs by at most one
`append_pr_to_json`. -/
theorem C1_incremental_persistence {σ : Type} (now : String)
    (inputs : List (PROutcome σ)) (i : Nat) (hi : i ≤ inputs.length) :
    (generate_stats_file now (inputs.take i)).1.pull_requests = okStats (inputs.take i)
    ∧ (∃ later, (generate_stats_file now (inputs.take i)).1.pull_requests ++ later =
        (generate_stats_file now inputs).1.pull_requests)
    ∧ ((∀ p ∈ inputs, ∃ s, p.2 = Except.ok s) →
        (generate_stats_file now (inputs.take i)).1.pull_requests.length = i) := by
  have hfile : ∀ l : List (PROutcome σ),
      (generate_stats_file now l).1.pull_requests = okStats l := by
    intro l
    rw [generate_stats_file, generate_stats_loop_spec]
    rfl
  refine ⟨hfile _, ⟨okStats (inputs.drop i), ?_⟩, fun hall => ?_⟩
  · rw [hfile, hfile, ← okStats_append, List.take_append_drop]
  · rw [hfile]
    rw [okStats_length_all_ok _ (fun p hp => hall p (List.take_subset i inputs hp))]
    rw [List.length_take]
    exact Nat.min_eq_left hi

theorem C1_incremental_persistence_witness :
    (generate_stats_file "2024-01-01T00:00:00+00:00"
        (([(1, Except.ok 5), (2, Except.ok 7)] : List (PROutcome Nat)).take 1)
      ).1.pull_requests.length = 1 :=
  (C1_incremental_persistence "2024-01-01T00:00:00+00:00"
      ([(1, Except.ok 5), (2, Except.ok 7)] : List (PROutcome Nat)) 1
      (by decide)).2.2 (by
    intro p hp
    simp only [List.mem_cons] at hp
    rcases hp with hp | hp | hp
    · exact ⟨5, by rw [hp]⟩
    · exact ⟨7, by rw [hp]⟩
    · cases hp)

/-- C1 counterexample: in a 3-PR run where processing PR #2 raises, the
document after the loop has handled the first 2 PRs holds 1 entry, not 2;
so "after processing PR i of n the file has exactly i entries" fails as
stated for runs with a failing PR. -/
theorem C1_counterexample :
    (generate_stats_file "t"
        (([(1, Except.ok 10), (2, Except.error "boom"), (3, Except.ok 20)] :
          List (PROutcome Nat)).take 2)).1.pull_requests.length ≠ 2 := by
  decide

/-- C6: `_paginate` requests pages 1, 2, 3, … at the fixed page size 100,
concatenates the returned lists in order, and stops exactly at the first
page returning fewer than 100 items or a non-list body; against pages of
sizes [100, 100, 37] it yields the 237 items in order and issues exactly the
3 requests `page=1,2,3` with `per_page=100`. -/
theorem C6_pagination {α : Type} (pages : Nat → Body α) (fuel : Nat)
    (a b c : List α)
    (h1 : pages 1 = Body.jlist a) (h2 : pages 2 = Body.jlist b)
    (h3 : pages 3 = Body.jlist c)
    (ha : a.length = 100) (hb : b.length = 100) (hc : c.length = 37)
    (hf : 3 ≤ fuel) :
    paginate pages fuel =
      (a ++ b ++ c,
        [⟨some 1, some 100, sessionAccept⟩, ⟨some 2, some 100, sessionAccept⟩,
          ⟨some 3, some 100, sessionAccept⟩])
    ∧ (a ++ b ++ c).length = 237
    ∧ (∀ (pages2 : Nat → Body α) (d : Bool) (f : Nat), pages2 1 = Body.other d →
        1 ≤ f → paginate pages2 f = ([], [⟨some 1, some 100, sessionAccept⟩])) := by
  obtain ⟨k, rfl⟩ : ∃ k, fuel = k + 3 := ⟨fuel - 3, by omega⟩
  have ha0 : a.isEmpty = false := by rcases a with _ | ⟨x, xs⟩ <;> simp_all
  have hb0 : b.isEmpty = false := by rcases b with _ | ⟨x, xs⟩ <;> simp_all
  have hc0 : c.isEmpty = false := by rcases c with _ | ⟨x, xs⟩ <;> simp_all
  refine ⟨?_, by simp [ha, hb, hc], ?_⟩
  · show paginateAux pages (k + 3) 1 = _
    rw [show k + 3 = (k + 2) + 1 from rfl, paginateAux, h1]
    rw [show k + 2 = (k + 1) + 1 from rfl, paginateAux, h2]
    rw [paginateAux, h3]
    simp [ha, hb, hc, ha0, hb0, hc0]
  · intro pages2 d f hother hf2
    obtain ⟨m, rfl⟩ : ∃ m, f = m + 1 := ⟨f - 1, by omega⟩
    show paginateAux pages2 (m + 1) 1 = _
    rw [paginateAux, hother]

theorem C6_pagination_witness :
    paginate c6pages 3 =
      (List.replicate 100 () ++ List.replicate 100 () ++ List.replicate 37 (),
        [⟨some 1, some 100, sessionAccept⟩, ⟨some 2, some 100, sessionAccept⟩,
          ⟨some 3, some 100, sessionAccept⟩])
    ∧ (List.replicate 100 () ++ List.replicate 100 () ++ List.replicate 37 ()).length = 237 := by
  have h := C6_pagination c6pages 3 (List.replicate 100 ()) (List.replicate 100 ())
    (List.replicate 37 ()) rfl rfl rfl (by simp) (by simp) (by simp) (by omega)
  exact ⟨h.1, h.2.1⟩

/-- C7 (amended): for every request issued through `_make_request`, a 403
whose reset header reads `T`, observed at time `now`, causes a sleep of
`max(T - now + 60, 60)` seconds followed by a retry of the identical
request, with no retry cap — a run of 403s never surfaces as a failure to
the caller. (`get_pr_timeline`, which bypasses `_make_request`, is the
exception recorded by the counterexample: it surfaces a 403 as an empty
result.) -/
theorem C7_rate_limit_retry {α : Type} :
    (∀ (r : HttpResp α) (rest : List (HttpResp α)), r.status = 403 →
        make_request (r :: rest) =
          (max (r.resetHeader.getD 0 - r.now + 60) 60 :: (make_request rest).1,
            (make_request rest).2))
    ∧ (∀ rs : List (HttpResp α), (∀ r ∈ rs, r.status = 403) →
        (make_request rs).2 = ReqOutcome.retrying) := by
  constructor
  · intro r rest h
    simp [make_request, h]
  · intro rs hall
    induction rs with
    | nil => rfl
    | cons r rest ih =>
      have h := hall r (List.mem_cons_self _ _)
      simp [make_request, h]
      exact ih (fun q hq => hall q (List.mem_cons_of_mem _ hq))

theorem C7_rate_limit_retry_witness :
    make_request ([⟨403, some 100, 50, Body.jlist []⟩] : List (HttpResp Nat)) =
      ([110], ReqOutcome.retrying) := by
  have h := (@C7_rate_limit_retry Nat).1 ⟨403, some 100, 50, Body.jlist []⟩ [] rfl
  exact h.trans (by decide)

/-- C7 counterexample: the claim states a 403 is never surfaced as a
failure or an empty result for any client operation, but `get_pr_timeline`
answers a 403 — even with a non-empty first page of events at the service —
by handing the caller the empty list. -/
theorem C7_counterexample :
    (get_pr_timeline (⟨403, fun _ => [(0 : Nat)]⟩ : TimelineService Nat)).1 = []
    ∧ (⟨403, fun _ => [(0 : Nat)]⟩ : TimelineService Nat).page 1 ≠ [] :=
  ⟨rfl, by decide⟩

/-- C9: `get_pr_timeline` issues exactly one GET, whose accept header is the
timeline-specific one and differs from the session header used by the rest
of the API, and it does not paginate: on a 200 the caller receives exactly
the service's first page, regardless of what further pages hold. -/
theorem C9_timeline_single_page {α : Type} (svc : TimelineService α)
    (h : svc.status = 200) :
    (get_pr_timeline svc).1 = svc.page 1
    ∧ (get_pr_timeline svc).2 = [⟨none, none, timelineAccept⟩]
    ∧ (get_pr_timeline svc).2.length = 1
    ∧ timelineAccept ≠ sessionAccept :=
  ⟨by simp [get_pr_timeline, h], rfl, rfl, by decide⟩

theorem C9_timeline_single_page_witness :
    (get_pr_timeline (⟨200, fun _ => [(7 : Nat)]⟩ : TimelineService Nat)).1 = [(7 : Nat)]
    ∧ timelineAccept ≠ sessionAccept := by
  have h := C9_timeline_single_page (⟨200, fun _ => [(7 : Nat)]⟩ : TimelineService Nat) rfl
  exact ⟨h.1, h.2.2.2⟩
